import Mathlib

/-!
Verification of the bitchat-tauri mesh-messaging core.

This file gives a shallow embedding, in Lean 4, of the parts of the Rust
source relevant to the codec, TTL handling, channel crypto, Noise session,
message store and peer directory, and proves (or refutes) the stated
properties of the specification against that embedding.

Conventions of the embedding:
- Rust byte buffers (`Vec<u8>`, `&[u8]`, `[u8; N]`) become `List Nat`, with
  byte values understood to be `< 256` where the Rust type enforces it.
- Rust machine integers become `Nat`; wrap-around is written explicitly
  with `% 2 ^ w` at the points where the source converts or can overflow.
- Fallible Rust functions (`Result<T>`) become `Except String T`.
- `Uuid::new_v4()` (a freshly generated random identifier) is modelled by
  an explicit `fresh : Nat` parameter of the function that calls it.
- `SystemTime` instants are modelled as `Nat` seconds; `a.elapsed()` at
  current instant `now` is `some (now - a)` when `a ≤ now`, `none` when the
  clock went backwards (the `Err` branch of the Rust API).
-/

/-- Big-endian byte serialization of a natural number into `n` bytes,
modelling Rust's `u64::to_be_bytes` (with `n = 8`) and `u16::to_be_bytes`
(with `n = 2`); values too large for `n` bytes are truncated to their low
`n` bytes exactly as the Rust integer cast does. -/
def toBeBytes : Nat → Nat → List Nat
  | 0, _ => []
  | n + 1, t => toBeBytes n (t / 256) ++ [t % 256]

/-- Big-endian byte deserialization, modelling `u64::from_be_bytes` and
`u16::from_be_bytes`. -/
def fromBeBytes (l : List Nat) : Nat :=
  l.foldl (fun acc b => acc * 256 + b) 0

/-- Reading one byte of a buffer at an index, modelling Rust slice
indexing `data[i]` (all uses in the source are guarded by length checks,
so the default value is never produced on the guarded paths). -/
def byteAt (data : List Nat) (i : Nat) : Nat :=
  data.getD i 0

/-- A contiguous sub-buffer, modelling Rust slicing `&data[off..off+n]`. -/
def subslice (data : List Nat) (off n : Nat) : List Nat :=
  (data.drop off).take n

namespace Protocol

/-- `PROTOCOL_VERSION` in `bluetooth/protocol.rs`. -/
def PROTOCOL_VERSION : Nat := 1

/-- `MAX_PAYLOAD_SIZE` in `bluetooth/protocol.rs`. -/
def MAX_PAYLOAD_SIZE : Nat := 512

/-- `MAX_TTL` in `bluetooth/protocol.rs`. -/
def MAX_TTL : Nat := 7

/-- The `MessageType` enum of `bluetooth/protocol.rs`. -/
inductive MessageType where
  | Announce
  | Message
  | DeliveryAck
  | DeliveryRequest
  | DeliveryStatus
  | ChannelList
  | NoiseInit
  | NoiseResponse
  | NoiseFinish
  | ChannelJoin
  | ChannelLeave
  | ChannelPassword
  | ChannelTransfer
deriving DecidableEq, Repr

/-- The discriminant of each `MessageType` value (its `#[repr(u8)]`
value, used by `message.message_type as u8` in `encode`). -/
def MessageType.toByte : MessageType → Nat
  | .Announce => 0x01
  | .Message => 0x04
  | .DeliveryAck => 0x0A
  | .DeliveryRequest => 0x0B
  | .DeliveryStatus => 0x0C
  | .ChannelList => 0x08
  | .NoiseInit => 0x10
  | .NoiseResponse => 0x11
  | .NoiseFinish => 0x12
  | .ChannelJoin => 0x14
  | .ChannelLeave => 0x15
  | .ChannelPassword => 0x16
  | .ChannelTransfer => 0x17

/-- `impl From<u8> for MessageType` in `bluetooth/protocol.rs`: the
thirteen enumerated values map to their variants, everything else falls
back to `MessageType::Message`. -/
def MessageType.fromByte (value : Nat) : MessageType :=
  if value = 0x01 then .Announce
  else if value = 0x04 then .Message
  else if value = 0x0A then .DeliveryAck
  else if value = 0x0B then .DeliveryRequest
  else if value = 0x0C then .DeliveryStatus
  else if value = 0x08 then .ChannelList
  else if value = 0x10 then .NoiseInit
  else if value = 0x11 then .NoiseResponse
  else if value = 0x12 then .NoiseFinish
  else if value = 0x14 then .ChannelJoin
  else if value = 0x15 then .ChannelLeave
  else if value = 0x16 then .ChannelPassword
  else if value = 0x17 then .ChannelTransfer
  else .Message

/-- The `MessageFlags` struct of `bluetooth/protocol.rs`. `reserved` is a
`u8` in the source; only its low nibble is ever serialized. -/
structure MessageFlags where
  has_recipient : Bool
  has_signature : Bool
  is_compressed : Bool
  is_encrypted : Bool
  reserved : Nat
deriving DecidableEq, Repr

/-- `MessageFlags::to_byte`: ORs of disjoint bit ranges, written as
addition (`flags |= 0x01` etc., then `flags |= (reserved & 0x0F) << 4`). -/
def MessageFlags.to_byte (f : MessageFlags) : Nat :=
  (if f.has_recipient then 0x01 else 0) +
  (if f.has_signature then 0x02 else 0) +
  (if f.is_compressed then 0x04 else 0) +
  (if f.is_encrypted then 0x08 else 0) +
  (f.reserved % 16) * 16

/-- `MessageFlags::from_byte`: bit tests written with `%` and `/`
(`byte & 0x01 ≠ 0` is `byte % 2 ≠ 0`, `(byte >> 4) & 0x0F` is
`byte / 16 % 16`). -/
def MessageFlags.from_byte (b : Nat) : MessageFlags where
  has_recipient := decide (b % 2 ≠ 0)
  has_signature := decide (b / 2 % 2 ≠ 0)
  is_compressed := decide (b / 4 % 2 ≠ 0)
  is_encrypted := decide (b / 8 % 2 ≠ 0)
  reserved := b / 16 % 16

/-- The `ProtocolMessage` struct of `bluetooth/protocol.rs`; `id : Uuid`
is modelled as a `Nat`. -/
structure ProtocolMessage where
  id : Nat
  version : Nat
  message_type : MessageType
  ttl : Nat
  timestamp : Nat
  flags : MessageFlags
  sender_id : List Nat
  recipient_id : Option (List Nat)
  payload : List Nat
  signature : Option (List Nat)
deriving DecidableEq, Repr

/-- `ProtocolMessage::decrease_ttl`: returns the message with `ttl`
decremented when `ttl > 0`, and `None` otherwise. -/
def ProtocolMessage.decrease_ttl (m : ProtocolMessage) : Option ProtocolMessage :=
  if m.ttl > 0 then some { m with ttl := m.ttl - 1 } else none

namespace BitchatProtocol

/-- The byte buffer assembled by `BitchatProtocol::encode` before its size
check: 12-byte fixed header, 2-byte big-endian payload length (the
`as u16` cast is the truncation inside `toBeBytes 2`), 8-byte sender id,
optional recipient id, payload, optional 64-byte signature. -/
def encodeBytes (m : ProtocolMessage) : List Nat :=
  [m.version] ++ [m.message_type.toByte] ++ [m.ttl] ++ toBeBytes 8 m.timestamp ++
    [m.flags.to_byte] ++ toBeBytes 2 m.payload.length ++ m.sender_id ++
    (match m.recipient_id with | some r => r | none => []) ++
    m.payload ++
    (match m.signature with | some s => s | none => [])

/-- `BitchatProtocol::encode`: assemble the buffer, fail when it exceeds
`MAX_PAYLOAD_SIZE`. -/
def encode (m : ProtocolMessage) : Except String (List Nat) :=
  let buffer := encodeBytes m
  if buffer.length > MAX_PAYLOAD_SIZE then
    .error "Message too large for BLE transmission"
  else
    .ok buffer

/-- The tail of `BitchatProtocol::decode` after the sender id has been
read: payload, then optional signature. `offset` is the running offset of
the source (22 without recipient id, 30 with). `fresh` models the
`Uuid::new_v4()` generated for the decoded message at line 336. -/
def decodeTail (fresh : Nat) (data : List Nat) (version : Nat)
    (message_type : MessageType) (ttl timestamp : Nat) (flags : MessageFlags)
    (payload_len : Nat) (sender_id : List Nat)
    (recipient_id : Option (List Nat)) (offset : Nat) :
    Except String ProtocolMessage :=
  if offset + payload_len > data.length then
    .error "Invalid message: payload length mismatch"
  else
    let payload := subslice data offset payload_len
    if flags.has_signature then
      if offset + payload_len + 64 > data.length then
        .error "Invalid message: missing signature"
      else
        .ok { id := fresh, version, message_type, ttl, timestamp, flags,
              sender_id, recipient_id, payload,
              signature := some (subslice data (offset + payload_len) 64) }
    else
      .ok { id := fresh, version, message_type, ttl, timestamp, flags,
            sender_id, recipient_id, payload, signature := none }

/-- `BitchatProtocol::decode`, following the source offset by offset:
header fields at offsets 0..11, payload length at 12, sender id at 14,
optional recipient id at 22. The decoded message's `id` is the freshly
generated `fresh`, not anything read from the wire. -/
def decode (fresh : Nat) (data : List Nat) : Except String ProtocolMessage :=
  if data.length < 13 then .error "Invalid message: too short"
  else
    let version := byteAt data 0
    if version ≠ PROTOCOL_VERSION then .error "Unsupported protocol version"
    else
      let message_type := MessageType.fromByte (byteAt data 1)
      let ttl := byteAt data 2
      let timestamp := fromBeBytes (subslice data 3 8)
      let flags := MessageFlags.from_byte (byteAt data 11)
      if 12 + 2 > data.length then .error "Invalid message: missing payload length"
      else
        let payload_len := fromBeBytes (subslice data 12 2)
        if 14 + 8 > data.length then .error "Invalid message: missing sender ID"
        else
          let sender_id := subslice data 14 8
          if flags.has_recipient then
            if 22 + 8 > data.length then .error "Invalid message: missing recipient ID"
            else
              decodeTail fresh data version message_type ttl timestamp flags
                payload_len sender_id (some (subslice data 22 8)) 30
          else
            decodeTail fresh data version message_type ttl timestamp flags
              payload_len sender_id none 22

/-- The thirteen type bytes enumerated by `impl From<u8> for MessageType`. -/
def enumeratedTypeBytes : List Nat :=
  [0x01, 0x04, 0x0A, 0x0B, 0x0C, 0x08, 0x10, 0x11, 0x12, 0x14, 0x15, 0x16, 0x17]

end BitchatProtocol

end Protocol

namespace MessageTypes

/-- The `MessageStatus` enum of `message/message_types.rs`. -/
inductive MessageStatus where
  | Draft
  | Sending
  | Sent
  | Delivered
  | Failed
  | Expired
deriving DecidableEq, Repr

/-- The `DeliveryStatus` enum of `message/message_types.rs`. -/
inductive DeliveryStatus where
  | Pending
  | Delivered
  | Read
  | Failed
deriving DecidableEq, Repr

/-- The application-level `MessageType` enum of `message/message_types.rs`
(distinct from the wire-level `Protocol.MessageType`). -/
inductive MessageType where
  | Broadcast
  | Private
  | Channel
  | System
  | Announcement
  | DeliveryReceipt
deriving DecidableEq, Repr

/-- The `BitchatMessage` struct of `message/message_types.rs`. `id : Uuid`
is a `Nat`, `timestamp : DateTime<Utc>` is `Nat` epoch seconds, and the
opaque `metadata : serde_json::Value` is carried as a `String`. -/
structure BitchatMessage where
  id : Nat
  sender_id : List Nat
  sender_nickname : String
  content : String
  timestamp : Nat
  message_type : MessageType
  channel : Option String
  recipient_id : Option (List Nat)
  recipient_nickname : Option String
  is_encrypted : Bool
  is_compressed : Bool
  ttl : Nat
  hop_count : Nat
  status : MessageStatus
  delivery_status : Option DeliveryStatus
  mentions : List String
  reply_to : Option Nat
  forwarded_from : Option (List Nat)
  signature : Option (List Nat)
  metadata : String
deriving DecidableEq, Repr

/-- `BitchatMessage::set_delivery_status`: unconditionally overwrites the
field with `Some(delivery_status)`. -/
def BitchatMessage.set_delivery_status (m : BitchatMessage)
    (delivery_status : DeliveryStatus) : BitchatMessage :=
  { m with delivery_status := some delivery_status }

/-- `BitchatMessage::decrease_ttl` (`&mut self → bool`, modelled as
returning the bool together with the updated message). `hop_count` is a
`u8`, so its increment wraps modulo 256. -/
def BitchatMessage.decrease_ttl (m : BitchatMessage) : Bool × BitchatMessage :=
  if m.ttl > 0 then
    (true, { m with ttl := m.ttl - 1, hop_count := (m.hop_count + 1) % 256 })
  else
    (false, m)

/-- `BitchatMessage::should_relay`: positive ttl, not a System or
DeliveryReceipt message, not in Failed or Expired status. -/
def BitchatMessage.should_relay (m : BitchatMessage) : Bool :=
  decide (m.ttl > 0) &&
  !(match m.message_type with
    | .System | .DeliveryReceipt => true
    | _ => false) &&
  !(match m.status with
    | .Failed | .Expired => true
    | _ => false)

end MessageTypes

namespace Storage

/-- The `MessageStorage` struct of `message/storage.rs` (the `VecDeque`
behind its lock, front first, together with `max_messages`). -/
structure MessageStorage where
  messages : List MessageTypes.BitchatMessage
  max_messages : Nat
deriving DecidableEq, Repr

/-- `MessageStorage::new`: empty deque, `max_messages = 10000`. -/
def MessageStorage.new : MessageStorage :=
  { messages := [], max_messages := 10000 }

/-- The eviction loop of `store_message`:
`while messages.len() > self.max_messages { messages.pop_front(); }`. -/
def popFrontWhileOver (maxMessages : Nat) :
    List MessageTypes.BitchatMessage → List MessageTypes.BitchatMessage
  | [] => []
  | x :: rest =>
    if (x :: rest).length > maxMessages then popFrontWhileOver maxMessages rest
    else x :: rest

/-- `MessageStorage::store_message`: skip when a message with the same id
is already stored, otherwise push to the back and evict from the front
while over the limit. -/
def MessageStorage.store_message (st : MessageStorage)
    (message : MessageTypes.BitchatMessage) : MessageStorage :=
  if st.messages.any (fun m => m.id == message.id) then st
  else { st with messages := popFrontWhileOver st.max_messages (st.messages ++ [message]) }

/-- A sequence of `store_message` calls starting from `MessageStorage::new`. -/
def storeSequence (msgs : List MessageTypes.BitchatMessage) : MessageStorage :=
  msgs.foldl MessageStorage.store_message MessageStorage.new

/-- The `iter_mut().find(|msg| msg.id == message_id)` + `set_delivery_status`
body of `MessageStorage::update_delivery_status`: update the first message
with the given id, leave the rest unchanged. -/
def updateFirstDelivery (message_id : Nat) (ds : MessageTypes.DeliveryStatus) :
    List MessageTypes.BitchatMessage → List MessageTypes.BitchatMessage
  | [] => []
  | x :: rest =>
    if x.id = message_id then x.set_delivery_status ds :: rest
    else x :: updateFirstDelivery message_id ds rest

/-- `MessageStorage::update_delivery_status`: mutate the first matching
message if any (a missing id only logs a warning), and return `Ok(())`
in every case. -/
def MessageStorage.update_delivery_status (st : MessageStorage) (message_id : Nat)
    (delivery_status : MessageTypes.DeliveryStatus) :
    MessageStorage × Except String Unit :=
  ({ st with messages := updateFirstDelivery message_id delivery_status st.messages },
   .ok ())

end Storage

namespace NoiseProtocol

/-- The `NoiseHandshakeState` enum of `crypto/noise_protocol.rs`. -/
inductive NoiseHandshakeState where
  | Uninitialized
  | InitiatorSendingInit
  | InitiatorWaitingResponse
  | InitiatorSendingFinish
  | ResponderWaitingInit
  | ResponderSendingResponse
  | ResponderWaitingFinish
  | Complete
  | Failed
deriving DecidableEq, Repr

/-- The `NoiseSession` struct of `crypto/noise_protocol.rs` (instants as
`Nat` seconds). -/
structure NoiseSession where
  peer_id : List Nat
  state : NoiseHandshakeState
  handshake_hash : List Nat
  created_at : Nat
  last_activity : Nat
deriving DecidableEq, Repr

/-- `NoiseSession::encrypt_message`: error unless the handshake is
`Complete`; otherwise the "simplified encryption" returns the plaintext
unchanged and refreshes `last_activity`. -/
def NoiseSession.encrypt_message (now : Nat) (s : NoiseSession)
    (plaintext : List Nat) : Except String (List Nat) × NoiseSession :=
  if s.state ≠ NoiseHandshakeState.Complete then
    (.error "Handshake not complete", s)
  else
    (.ok plaintext, { s with last_activity := now })

/-- `NoiseSession::decrypt_message`: error unless the handshake is
`Complete`; otherwise the "simplified decryption" returns the ciphertext
unchanged and refreshes `last_activity`. The source keeps no nonce
state and never compares a nonce. -/
def NoiseSession.decrypt_message (now : Nat) (s : NoiseSession)
    (ciphertext : List Nat) : Except String (List Nat) × NoiseSession :=
  if s.state ≠ NoiseHandshakeState.Complete then
    (.error "Handshake not complete", s)
  else
    (.ok ciphertext, { s with last_activity := now })

end NoiseProtocol

namespace ChannelCrypto

/-- `SALT_SIZE` in `crypto/channel_crypto.rs`. -/
def SALT_SIZE : Nat := 32

/-- Modelled from the spec: the `Sha256` digest of the `sha2` crate,
an external dependency whose code is not part of this repository. Only
its interface is relevant here — a deterministic function from a byte
sequence to a 32-byte digest. This executable stand-in mixes every input
byte into an accumulator so that the small concrete inputs used below
receive distinct digests. -/
def sha256_model (input : List Nat) : List Nat :=
  (List.range 32).map (fun i =>
    (input.foldl (fun acc b => (acc * 131 + b + 1) % 4294967291) (i + 1)) % 256)

/-- The `ChannelKey` struct of `crypto/channel_crypto.rs` (instants as
`Nat` seconds; the channel password is carried as its byte sequence). -/
structure ChannelKey where
  channel_name : String
  key : List Nat
  salt : List Nat
  created_at : Nat
  last_used : Nat
deriving DecidableEq, Repr

/-- `ChannelKey::derive_key`: SHA-256 over the password bytes followed by
the salt. -/
def ChannelKey.derive_key (password salt : List Nat) : List Nat :=
  sha256_model (password ++ salt)

/-- `ChannelKey::from_password_and_salt`. -/
def ChannelKey.from_password_and_salt (now : Nat) (channel_name : String)
    (password : List Nat) (salt : List Nat) : ChannelKey :=
  { channel_name, key := ChannelKey.derive_key password salt, salt,
    created_at := now, last_used := now }

/-- The XOR loop shared by `encrypt_channel_message`,
`decrypt_channel_message` and `try_decrypt_with_password`:
`result.push(byte ^ key[i % key.len()])`, with `i` the running index. -/
def xorWithKeyFrom (key : List Nat) (i : Nat) : List Nat → List Nat
  | [] => []
  | b :: rest =>
    Nat.xor b (key.getD (i % key.length) 0) :: xorWithKeyFrom key (i + 1) rest

/-- The XOR loop started at index 0. -/
def xorWithKey (key : List Nat) (data : List Nat) : List Nat :=
  xorWithKeyFrom key 0 data

/-- `ChannelCrypto::encrypt_channel_message` for a channel whose key is
present (the map lookup and `mark_used` bookkeeping aside): "simplified
encryption - XOR with key". -/
def encryptWithChannelKey (k : ChannelKey) (plaintext : List Nat) : List Nat :=
  xorWithKey k.key plaintext

/-- `ChannelCrypto::decrypt_channel_message` for a channel whose key is
present: the same XOR. -/
def decryptWithChannelKey (k : ChannelKey) (ciphertext : List Nat) : List Nat :=
  xorWithKey k.key ciphertext

/-- `ChannelCrypto::try_decrypt_with_password`: derive a temporary key
from the offered password and the salt, XOR the ciphertext with it, cache
the key, and return `Ok`. There is no authentication tag and no failure
path. -/
def try_decrypt_with_password (now : Nat) (channel : String) (password : List Nat)
    (ciphertext : List Nat) (salt : List Nat) : Except String (List Nat) :=
  let temp_key := ChannelKey.from_password_and_salt now channel password salt
  .ok (xorWithKey temp_key.key ciphertext)

end ChannelCrypto

namespace PeerManager

/-- `PEER_TIMEOUT` in `bluetooth/peer_manager.rs`. -/
def PEER_TIMEOUT : Nat := 90

/-- The `ConnectionState` enum of `bluetooth/peer_manager.rs`. -/
inductive ConnectionState where
  | Discovering
  | Connecting
  | Connected
  | Authenticated
  | Disconnected
  | Failed
deriving DecidableEq, Repr

/-- The `PeerInfo` struct of `bluetooth/peer_manager.rs` (instants as
`Nat` seconds). -/
structure PeerInfo where
  peer_id : List Nat
  nickname : String
  connection_state : ConnectionState
  last_seen : Nat
  first_seen : Nat
  rssi : Option Int
  device_address : Option String
  noise_public_key : Option (List Nat)
  fingerprint : Option String
  message_count : Nat
  is_favorite : Bool
  is_blocked : Bool
  channels : List String
deriving DecidableEq, Repr

/-- `SystemTime::elapsed` at current instant `now`: `Ok(now - earlier)`
when the clock did not go backwards, `Err` otherwise. -/
def elapsedSecs (earlier now : Nat) : Option Nat :=
  if earlier ≤ now then some (now - earlier) else none

/-- `PeerInfo::is_online`: `Connected` and `Authenticated` peers are
online; otherwise a peer is online iff it was heard less than
`PEER_TIMEOUT` seconds ago (clock errors count as offline). -/
def PeerInfo.is_online (now : Nat) (p : PeerInfo) : Bool :=
  match p.connection_state with
  | .Connected | .Authenticated => true
  | _ =>
    match elapsedSecs p.last_seen now with
    | some e => decide (e < PEER_TIMEOUT)
    | none => false

/-- `PeerManager::cleanup_offline_peers` over the entries of the peer map:
favorites are skipped; a peer is removed when its elapsed time is known,
exceeds `PEER_TIMEOUT`, and the peer is not `is_online`. -/
def cleanup_offline_peers (now : Nat) (peers : List PeerInfo) : List PeerInfo :=
  peers.filter (fun p =>
    if p.is_favorite then true
    else
      match elapsedSecs p.last_seen now with
      | some e => !(decide (e > PEER_TIMEOUT) && !(p.is_online now))
      | none => true)

end PeerManager

deriving instance DecidableEq for Except

/-! ## Concrete test fixtures -/

/-- A minimal valid frame (no recipient, no signature, empty payload). -/
def c1Frame : Protocol.ProtocolMessage :=
  { id := 0, version := 1, message_type := .Message, ttl := 7, timestamp := 0,
    flags := { has_recipient := false, has_signature := false,
               is_compressed := false, is_encrypted := false, reserved := 0 },
    sender_id := List.replicate 8 0, recipient_id := none, payload := [],
    signature := none }

/-- A minimal valid frame used for the trailing-bytes experiments. -/
def c5Frame : Protocol.ProtocolMessage :=
  { id := 0, version := 1, message_type := .Announce, ttl := 3, timestamp := 1234,
    flags := { has_recipient := false, has_signature := false,
               is_compressed := false, is_encrypted := false, reserved := 5 },
    sender_id := [1, 2, 3, 4, 5, 6, 7, 8], recipient_id := none,
    payload := [9, 9], signature := none }

/-- A small frame whose encoding fits the size ceiling. -/
def c6SmallFrame : Protocol.ProtocolMessage :=
  { id := 0, version := 1, message_type := .Message, ttl := 7, timestamp := 0,
    flags := { has_recipient := false, has_signature := false,
               is_compressed := false, is_encrypted := false, reserved := 0 },
    sender_id := List.replicate 8 0, recipient_id := none, payload := [42],
    signature := none }

/-- A frame whose 600-byte payload pushes the encoding over 512 bytes. -/
def c6BigFrame : Protocol.ProtocolMessage :=
  { id := 0, version := 1, message_type := .Message, ttl := 7, timestamp := 0,
    flags := { has_recipient := false, has_signature := false,
               is_compressed := false, is_encrypted := false, reserved := 0 },
    sender_id := List.replicate 8 0, recipient_id := none,
    payload := List.replicate 600 0, signature := none }

/-- A well-formed wire buffer whose type byte `0x05` is not one of the
thirteen enumerated values. -/
def c10Bytes : List Nat :=
  [1, 5, 7, 0, 0, 0, 0, 0, 0, 0, 0, 0, 0, 0] ++ List.replicate 8 0

/-- The frame that `decode` produces from `c10Bytes` (with fresh id 0). -/
def c10Decoded : Protocol.ProtocolMessage :=
  { id := 0, version := 1, message_type := .Message, ttl := 7, timestamp := 0,
    flags := { has_recipient := false, has_signature := false,
               is_compressed := false, is_encrypted := false, reserved := 0 },
    sender_id := List.replicate 8 0, recipient_id := none, payload := [],
    signature := none }

/-- A template application-level message with the given id. -/
def mkTestMessage (i : Nat) : MessageTypes.BitchatMessage :=
  { id := i, sender_id := List.replicate 8 0, sender_nickname := "peer",
    content := "hello", timestamp := 0, message_type := .Broadcast,
    channel := none, recipient_id := none, recipient_nickname := none,
    is_encrypted := false, is_compressed := false, ttl := 7, hop_count := 0,
    status := .Draft, delivery_status := none, mentions := [],
    reply_to := none, forwarded_from := none, signature := none,
    metadata := "" }

/-- 10001 messages with pairwise distinct ids 0..10000. -/
def c7TestMessages : List MessageTypes.BitchatMessage :=
  (List.range 10001).map mkTestMessage

/-- A stored message whose delivery status is already `Read`. -/
def c8ReadMessage : MessageTypes.BitchatMessage :=
  { mkTestMessage 5 with delivery_status := some .Read }

/-- A store holding only `c8ReadMessage`. -/
def c8Store : Storage.MessageStorage :=
  { messages := [c8ReadMessage], max_messages := 10000 }

/-- A store holding one `Pending` message with id 5, for the witness. -/
def c8WStore : Storage.MessageStorage :=
  { messages := [{ mkTestMessage 5 with delivery_status := some .Pending }],
    max_messages := 10000 }

/-- An established Noise session. -/
def c3Session : NoiseProtocol.NoiseSession :=
  { peer_id := [2, 2, 2, 2, 2, 2, 2, 2], state := .Complete,
    handshake_hash := List.replicate 32 0, created_at := 0, last_activity := 0 }

/-- Password "pw" as bytes. -/
def c2PwBytes : List Nat := [112, 119]

/-- Password "nope" as bytes — differs from "pw" in every byte. -/
def c2NopeBytes : List Nat := [110, 111, 112, 101]

/-- The all-zero salt that `ChannelKey::from_password` uses. -/
def c2Salt : List Nat := List.replicate 32 0

/-- Plaintext "hi" as bytes. -/
def c2Plain : List Nat := [104, 105]

/-- A non-favorite peer in `Connected` state whose `last_seen` is far in
the past. -/
def c9ConnectedStalePeer : PeerManager.PeerInfo :=
  { peer_id := [1, 1, 1, 1, 1, 1, 1, 1], nickname := "a",
    connection_state := .Connected, last_seen := 0, first_seen := 0,
    rssi := none, device_address := none, noise_public_key := none,
    fingerprint := none, message_count := 0, is_favorite := false,
    is_blocked := false, channels := [] }

/-- A favorite peer, silent for a long time. -/
def c9FavoritePeer : PeerManager.PeerInfo :=
  { peer_id := [2, 2, 2, 2, 2, 2, 2, 2], nickname := "b",
    connection_state := .Disconnected, last_seen := 0, first_seen := 0,
    rssi := none, device_address := none, noise_public_key := none,
    fingerprint := none, message_count := 0, is_favorite := true,
    is_blocked := false, channels := [] }

/-- A non-favorite disconnected peer, silent for a long time. -/
def c9StalePeer : PeerManager.PeerInfo :=
  { peer_id := [3, 3, 3, 3, 3, 3, 3, 3], nickname := "c",
    connection_state := .Discovering, last_seen := 0, first_seen := 0,
    rssi := none, device_address := none, noise_public_key := none,
    fingerprint := none, message_count := 0, is_favorite := false,
    is_blocked := false, channels := [] }

/-! ## Theorems -/

theorem byteAt_drop (l : List Nat) (i : Nat) : byteAt l i = byteAt (l.drop i) 0 := by
  induction i generalizing l with
  | zero => simp [byteAt]
  | succ k ih =>
    cases l with
    | nil => simp [byteAt]
    | cons x xs => simpa [byteAt, List.getD_cons_succ] using ih xs

theorem length_toBeBytes (n t : Nat) : (toBeBytes n t).length = n := by
  induction n generalizing t with
  | zero => rfl
  | succ k ih => simp [toBeBytes, ih]

theorem fromBeBytes_toBeBytes (n t : Nat) :
    fromBeBytes (toBeBytes n t) = t % 256 ^ n := by
  induction n generalizing t with
  | zero => simp [toBeBytes, fromBeBytes, Nat.mod_one]
  | succ k ih =>
    have hfold : fromBeBytes (toBeBytes k (t / 256) ++ [t % 256])
        = fromBeBytes (toBeBytes k (t / 256)) * 256 + t % 256 := by
      simp [fromBeBytes, List.foldl_append]
    have hmul : t % (256 ^ k * 256) = t % 256 + 256 * (t / 256 % 256 ^ k) := by
      rw [mul_comm]
      exact Nat.mod_mul
    calc fromBeBytes (toBeBytes (k + 1) t)
        = fromBeBytes (toBeBytes k (t / 256)) * 256 + t % 256 := by
          simpa [toBeBytes] using hfold
      _ = (t / 256 % 256 ^ k) * 256 + t % 256 := by rw [ih]
      _ = t % 256 ^ (k + 1) := by rw [pow_succ]; omega

namespace Protocol

theorem MessageType.fromByte_toByte (t : MessageType) :
    MessageType.fromByte t.toByte = t := by
  cases t <;> rfl

theorem MessageFlags.from_byte_to_byte (f : MessageFlags)
    (h : f.reserved < 16) : MessageFlags.from_byte f.to_byte = f := by
  obtain ⟨r, s, c, e, res⟩ := f
  simp only [MessageFlags.to_byte] at h ⊢
  cases r <;> cases s <;> cases c <;> cases e <;>
    simp [MessageFlags.from_byte, MessageFlags.mk.injEq,
      decide_eq_true_eq, decide_eq_false_iff_not] <;>
    omega

namespace BitchatProtocol

/-- Core codec lemma: decoding an encoded frame — with any trailing junk
appended — succeeds and recovers every field of the frame except `id`,
which is replaced by the freshly generated `fresh`. -/
theorem decode_encodeBytes_append (m : ProtocolMessage) (fresh : Nat) (junk : List Nat)
    (hv : m.version = PROTOCOL_VERSION)
    (hres : m.flags.reserved < 16)
    (hts : m.timestamp < 2 ^ 64)
    (hsender : m.sender_id.length = 8)
    (hrecflag : m.recipient_id.isSome = m.flags.has_recipient)
    (hreclen : ∀ r, m.recipient_id = some r → r.length = 8)
    (hsigflag : m.signature.isSome = m.flags.has_signature)
    (hsiglen : ∀ s, m.signature = some s → s.length = 64)
    (hP : m.payload.length < 65536) :
    decode fresh (encodeBytes m ++ junk) = .ok { m with id := fresh } := by
  obtain ⟨mid, mv, mt, mttl, mts, mfl, mS, mR, mP, mG⟩ := m
  dsimp only at hv hres hts hsender hrecflag hreclen hsigflag hsiglen hP ⊢
  have hv1 : mv = 1 := hv
  subst hv1
  have h2exp : (256 : Nat) ^ 8 = 2 ^ 64 := by norm_num
  have h2exp2 : (256 : Nat) ^ 2 = 65536 := by norm_num
  rcases mR with _ | r <;> rcases mG with _ | g
  · -- no recipient, no signature
    have hfr : mfl.has_recipient = false := by simpa using hrecflag.symm
    have hfg : mfl.has_signature = false := by simpa using hsigflag.symm
    have hD : encodeBytes ⟨mid, 1, mt, mttl, mts, mfl, mS, none, mP, none⟩ ++ junk
        = 1 :: mt.toByte :: mttl :: (toBeBytes 8 mts ++ mfl.to_byte ::
          (toBeBytes 2 mP.length ++ (mS ++ (mP ++ junk)))) := by
      simp [encodeBytes, List.append_assoc]
    rw [hD]
    generalize hE : (1 :: mt.toByte :: mttl :: (toBeBytes 8 mts ++ mfl.to_byte ::
          (toBeBytes 2 mP.length ++ (mS ++ (mP ++ junk))))) = E
    have d3 : E.drop 3 = toBeBytes 8 mts ++ mfl.to_byte ::
        (toBeBytes 2 mP.length ++ (mS ++ (mP ++ junk))) := by rw [← hE]; rfl
    have d11 : E.drop 11 = mfl.to_byte :: (toBeBytes 2 mP.length ++ (mS ++ (mP ++ junk))) := by
      have h : (E.drop 3).drop 8 = E.drop 11 := by rw [List.drop_drop]
      rw [← h, d3, List.drop_left' (length_toBeBytes 8 mts)]
    have d12 : E.drop 12 = toBeBytes 2 mP.length ++ (mS ++ (mP ++ junk)) := by
      have h : (E.drop 11).drop 1 = E.drop 12 := by rw [List.drop_drop]
      rw [← h, d11]; rfl
    have d14 : E.drop 14 = mS ++ (mP ++ junk) := by
      have h : (E.drop 12).drop 2 = E.drop 14 := by rw [List.drop_drop]
      rw [← h, d12, List.drop_left' (length_toBeBytes 2 mP.length)]
    have d22 : E.drop 22 = mP ++ junk := by
      have h : (E.drop 14).drop 8 = E.drop 22 := by rw [List.drop_drop]
      rw [← h, d14, List.drop_left' hsender]
    have r0 : byteAt E 0 = 1 := by rw [← hE]; rfl
    have r1 : byteAt E 1 = mt.toByte := by rw [← hE]; rfl
    have r2 : byteAt E 2 = mttl := by rw [← hE]; rfl
    have r11 : byteAt E 11 = mfl.to_byte := by rw [byteAt_drop, d11]; rfl
    have s3 : subslice E 3 8 = toBeBytes 8 mts := by
      simp only [subslice]
      rw [d3, List.take_left' (length_toBeBytes 8 mts)]
    have s12 : subslice E 12 2 = toBeBytes 2 mP.length := by
      simp only [subslice]
      rw [d12, List.take_left' (length_toBeBytes 2 mP.length)]
    have s14 : subslice E 14 8 = mS := by
      simp only [subslice]
      rw [d14, List.take_left' hsender]
    have sP : subslice E 22 mP.length = mP := by
      simp only [subslice]
      rw [d22, List.take_left' rfl]
    have hlen : E.length = 22 + mP.length + junk.length := by
      rw [← hE]
      simp [length_toBeBytes, hsender] <;> omega
    simp only [decode]
    rw [if_neg (show ¬(E.length < 13) by omega), r0,
      if_neg (show ¬((1 : Nat) ≠ PROTOCOL_VERSION) by decide),
      r1, MessageType.fromByte_toByte, r2, s3, fromBeBytes_toBeBytes,
      Nat.mod_eq_of_lt (show mts < 256 ^ 8 by omega),
      r11, MessageFlags.from_byte_to_byte mfl hres,
      if_neg (show ¬(12 + 2 > E.length) by omega),
      s12, fromBeBytes_toBeBytes,
      Nat.mod_eq_of_lt (show mP.length < 256 ^ 2 by omega),
      if_neg (show ¬(14 + 8 > E.length) by omega),
      s14, hfr, if_neg (show ¬(false = true) by decide)]
    simp only [decodeTail]
    rw [if_neg (show ¬(22 + mP.length > E.length) by omega), sP, hfg,
      if_neg (show ¬(false = true) by decide)]
  · -- no recipient, signature present
    have hfr : mfl.has_recipient = false := by simpa using hrecflag.symm
    have hfg : mfl.has_signature = true := by simpa using hsigflag.symm
    have hg : g.length = 64 := hsiglen g rfl
    have hD : encodeBytes ⟨mid, 1, mt, mttl, mts, mfl, mS, none, mP, some g⟩ ++ junk
        = 1 :: mt.toByte :: mttl :: (toBeBytes 8 mts ++ mfl.to_byte ::
          (toBeBytes 2 mP.length ++ (mS ++ (mP ++ (g ++ junk))))) := by
      simp [encodeBytes, List.append_assoc]
    rw [hD]
    generalize hE : (1 :: mt.toByte :: mttl :: (toBeBytes 8 mts ++ mfl.to_byte ::
          (toBeBytes 2 mP.length ++ (mS ++ (mP ++ (g ++ junk)))))) = E
    have d3 : E.drop 3 = toBeBytes 8 mts ++ mfl.to_byte ::
        (toBeBytes 2 mP.length ++ (mS ++ (mP ++ (g ++ junk)))) := by rw [← hE]; rfl
    have d11 : E.drop 11 = mfl.to_byte ::
        (toBeBytes 2 mP.length ++ (mS ++ (mP ++ (g ++ junk)))) := by
      have h : (E.drop 3).drop 8 = E.drop 11 := by rw [List.drop_drop]
      rw [← h, d3, List.drop_left' (length_toBeBytes 8 mts)]
    have d12 : E.drop 12 = toBeBytes 2 mP.length ++ (mS ++ (mP ++ (g ++ junk))) := by
      have h : (E.drop 11).drop 1 = E.drop 12 := by rw [List.drop_drop]
      rw [← h, d11]; rfl
    have d14 : E.drop 14 = mS ++ (mP ++ (g ++ junk)) := by
      have h : (E.drop 12).drop 2 = E.drop 14 := by rw [List.drop_drop]
      rw [← h, d12, List.drop_left' (length_toBeBytes 2 mP.length)]
    have d22 : E.drop 22 = mP ++ (g ++ junk) := by
      have h : (E.drop 14).drop 8 = E.drop 22 := by rw [List.drop_drop]
      rw [← h, d14, List.drop_left' hsender]
    have dSig : E.drop (22 + mP.length) = g ++ junk := by
      have h : (E.drop 22).drop mP.length = E.drop (22 + mP.length) := by rw [List.drop_drop]
      rw [← h, d22, List.drop_left' rfl]
    have r0 : byteAt E 0 = 1 := by rw [← hE]; rfl
    have r1 : byteAt E 1 = mt.toByte := by rw [← hE]; rfl
    have r2 : byteAt E 2 = mttl := by rw [← hE]; rfl
    have r11 : byteAt E 11 = mfl.to_byte := by rw [byteAt_drop, d11]; rfl
    have s3 : subslice E 3 8 = toBeBytes 8 mts := by
      simp only [subslice]
      rw [d3, List.take_left' (length_toBeBytes 8 mts)]
    have s12 : subslice E 12 2 = toBeBytes 2 mP.length := by
      simp only [subslice]
      rw [d12, List.take_left' (length_toBeBytes 2 mP.length)]
    have s14 : subslice E 14 8 = mS := by
      simp only [subslice]
      rw [d14, List.take_left' hsender]
    have sP : subslice E 22 mP.length = mP := by
      simp only [subslice]
      rw [d22, List.take_left' rfl]
    have sSig : subslice E (22 + mP.length) 64 = g := by
      simp only [subslice]
      rw [dSig, List.take_left' hg]
    have hlen : E.length = 22 + mP.length + 64 + junk.length := by
      rw [← hE]
      simp [length_toBeBytes, hsender, hg] <;> omega
    simp only [decode]
    rw [if_neg (show ¬(E.length < 13) by omega), r0,
      if_neg (show ¬((1 : Nat) ≠ PROTOCOL_VERSION) by decide),
      r1, MessageType.fromByte_toByte, r2, s3, fromBeBytes_toBeBytes,
      Nat.mod_eq_of_lt (show mts < 256 ^ 8 by omega),
      r11, MessageFlags.from_byte_to_byte mfl hres,
      if_neg (show ¬(12 + 2 > E.length) by omega),
      s12, fromBeBytes_toBeBytes,
      Nat.mod_eq_of_lt (show mP.length < 256 ^ 2 by omega),
      if_neg (show ¬(14 + 8 > E.length) by omega),
      s14, hfr, if_neg (show ¬(false = true) by decide)]
    simp only [decodeTail]
    rw [if_neg (show ¬(22 + mP.length > E.length) by omega), sP, hfg,
      if_pos (show (true = true) by decide),
      if_neg (show ¬(22 + mP.length + 64 > E.length) by omega), sSig]
  · -- recipient present, no signature
    have hfr : mfl.has_recipient = true := by simpa using hrecflag.symm
    have hfg : mfl.has_signature = false := by simpa using hsigflag.symm
    have hr : r.length = 8 := hreclen r rfl
    have hD : encodeBytes ⟨mid, 1, mt, mttl, mts, mfl, mS, some r, mP, none⟩ ++ junk
        = 1 :: mt.toByte :: mttl :: (toBeBytes 8 mts ++ mfl.to_byte ::
          (toBeBytes 2 mP.length ++ (mS ++ (r ++ (mP ++ junk))))) := by
      simp [encodeBytes, List.append_assoc]
    rw [hD]
    generalize hE : (1 :: mt.toByte :: mttl :: (toBeBytes 8 mts ++ mfl.to_byte ::
          (toBeBytes 2 mP.length ++ (mS ++ (r ++ (mP ++ junk)))))) = E
    have d3 : E.drop 3 = toBeBytes 8 mts ++ mfl.to_byte ::
        (toBeBytes 2 mP.length ++ (mS ++ (r ++ (mP ++ junk)))) := by rw [← hE]; rfl
    have d11 : E.drop 11 = mfl.to_byte ::
        (toBeBytes 2 mP.length ++ (mS ++ (r ++ (mP ++ junk)))) := by
      have h : (E.drop 3).drop 8 = E.drop 11 := by rw [List.drop_drop]
      rw [← h, d3, List.drop_left' (length_toBeBytes 8 mts)]
    have d12 : E.drop 12 = toBeBytes 2 mP.length ++ (mS ++ (r ++ (mP ++ junk))) := by
      have h : (E.drop 11).drop 1 = E.drop 12 := by rw [List.drop_drop]
      rw [← h, d11]; rfl
    have d14 : E.drop 14 = mS ++ (r ++ (mP ++ junk)) := by
      have h : (E.drop 12).drop 2 = E.drop 14 := by rw [List.drop_drop]
      rw [← h, d12, List.drop_left' (length_toBeBytes 2 mP.length)]
    have d22 : E.drop 22 = r ++ (mP ++ junk) := by
      have h : (E.drop 14).drop 8 = E.drop 22 := by rw [List.drop_drop]
      rw [← h, d14, List.drop_left' hsender]
    have d30 : E.drop 30 = mP ++ junk := by
      have h : (E.drop 22).drop 8 = E.drop 30 := by rw [List.drop_drop]
      rw [← h, d22, List.drop_left' hr]
    have r0 : byteAt E 0 = 1 := by rw [← hE]; rfl
    have r1 : byteAt E 1 = mt.toByte := by rw [← hE]; rfl
    have r2 : byteAt E 2 = mttl := by rw [← hE]; rfl
    have r11 : byteAt E 11 = mfl.to_byte := by rw [byteAt_drop, d11]; rfl
    have s3 : subslice E 3 8 = toBeBytes 8 mts := by
      simp only [subslice]
      rw [d3, List.take_left' (length_toBeBytes 8 mts)]
    have s12 : subslice E 12 2 = toBeBytes 2 mP.length := by
      simp only [subslice]
      rw [d12, List.take_left' (length_toBeBytes 2 mP.length)]
    have s14 : subslice E 14 8 = mS := by
      simp only [subslice]
      rw [d14, List.take_left' hsender]
    have s22 : subslice E 22 8 = r := by
      simp only [subslice]
      rw [d22, List.take_left' hr]
    have sP : subslice E 30 mP.length = mP := by
      simp only [subslice]
      rw [d30, List.take_left' rfl]
    have hlen : E.length = 30 + mP.length + junk.length := by
      rw [← hE]
      simp [length_toBeBytes, hsender, hr] <;> omega
    simp only [decode]
    rw [if_neg (show ¬(E.length < 13) by omega), r0,
      if_neg (show ¬((1 : Nat) ≠ PROTOCOL_VERSION) by decide),
      r1, MessageType.fromByte_toByte, r2, s3, fromBeBytes_toBeBytes,
      Nat.mod_eq_of_lt (show mts < 256 ^ 8 by omega),
      r11, MessageFlags.from_byte_to_byte mfl hres,
      if_neg (show ¬(12 + 2 > E.length) by omega),
      s12, fromBeBytes_toBeBytes,
      Nat.mod_eq_of_lt (show mP.length < 256 ^ 2 by omega),
      if_neg (show ¬(14 + 8 > E.length) by omega),
      s14, hfr, if_pos (show (true = true) by decide),
      if_neg (show ¬(22 + 8 > E.length) by omega), s22]
    simp only [decodeTail]
    rw [if_neg (show ¬(30 + mP.length > E.length) by omega), sP, hfg,
      if_neg (show ¬(false = true) by decide)]
  · -- recipient and signature present
    have hfr : mfl.has_recipient = true := by simpa using hrecflag.symm
    have hfg : mfl.has_signature = true := by simpa using hsigflag.symm
    have hr : r.length = 8 := hreclen r rfl
    have hg : g.length = 64 := hsiglen g rfl
    have hD : encodeBytes ⟨mid, 1, mt, mttl, mts, mfl, mS, some r, mP, some g⟩ ++ junk
        = 1 :: mt.toByte :: mttl :: (toBeBytes 8 mts ++ mfl.to_byte ::
          (toBeBytes 2 mP.length ++ (mS ++ (r ++ (mP ++ (g ++ junk)))))) := by
      simp [encodeBytes, List.append_assoc]
    rw [hD]
    generalize hE : (1 :: mt.toByte :: mttl :: (toBeBytes 8 mts ++ mfl.to_byte ::
          (toBeBytes 2 mP.length ++ (mS ++ (r ++ (mP ++ (g ++ junk))))))) = E
    have d3 : E.drop 3 = toBeBytes 8 mts ++ mfl.to_byte ::
        (toBeBytes 2 mP.length ++ (mS ++ (r ++ (mP ++ (g ++ junk))))) := by rw [← hE]; rfl
    have d11 : E.drop 11 = mfl.to_byte ::
        (toBeBytes 2 mP.length ++ (mS ++ (r ++ (mP ++ (g ++ junk))))) := by
      have h : (E.drop 3).drop 8 = E.drop 11 := by rw [List.drop_drop]
      rw [← h, d3, List.drop_left' (length_toBeBytes 8 mts)]
    have d12 : E.drop 12 = toBeBytes 2 mP.length ++ (mS ++ (r ++ (mP ++ (g ++ junk)))) := by
      have h : (E.drop 11).drop 1 = E.drop 12 := by rw [List.drop_drop]
      rw [← h, d11]; rfl
    have d14 : E.drop 14 = mS ++ (r ++ (mP ++ (g ++ junk))) := by
      have h : (E.drop 12).drop 2 = E.drop 14 := by rw [List.drop_drop]
      rw [← h, d12, List.drop_left' (length_toBeBytes 2 mP.length)]
    have d22 : E.drop 22 = r ++ (mP ++ (g ++ junk)) := by
      have h : (E.drop 14).drop 8 = E.drop 22 := by rw [List.drop_drop]
      rw [← h, d14, List.drop_left' hsender]
    have d30 : E.drop 30 = mP ++ (g ++ junk) := by
      have h : (E.drop 22).drop 8 = E.drop 30 := by rw [List.drop_drop]
      rw [← h, d22, List.drop_left' hr]
    have dSig : E.drop (30 + mP.length) = g ++ junk := by
      have h : (E.drop 30).drop mP.length = E.drop (30 + mP.length) := by rw [List.drop_drop]
      rw [← h, d30, List.drop_left' rfl]
    have r0 : byteAt E 0 = 1 := by rw [← hE]; rfl
    have r1 : byteAt E 1 = mt.toByte := by rw [← hE]; rfl
    have r2 : byteAt E 2 = mttl := by rw [← hE]; rfl
    have r11 : byteAt E 11 = mfl.to_byte := by rw [byteAt_drop, d11]; rfl
    have s3 : subslice E 3 8 = toBeBytes 8 mts := by
      simp only [subslice]
      rw [d3, List.take_left' (length_toBeBytes 8 mts)]
    have s12 : subslice E 12 2 = toBeBytes 2 mP.length := by
      simp only [subslice]
      rw [d12, List.take_left' (length_toBeBytes 2 mP.length)]
    have s14 : subslice E 14 8 = mS := by
      simp only [subslice]
      rw [d14, List.take_left' hsender]
    have s22 : subslice E 22 8 = r := by
      simp only [subslice]
      rw [d22, List.take_left' hr]
    have sP : subslice E 30 mP.length = mP := by
      simp only [subslice]
      rw [d30, List.take_left' rfl]
    have sSig : subslice E (30 + mP.length) 64 = g := by
      simp only [subslice]
      rw [dSig, List.take_left' hg]
    have hlen : E.length = 30 + mP.length + 64 + junk.length := by
      rw [← hE]
      simp [length_toBeBytes, hsender, hr, hg] <;> omega
    simp only [decode]
    rw [if_neg (show ¬(E.length < 13) by omega), r0,
      if_neg (show ¬((1 : Nat) ≠ PROTOCOL_VERSION) by decide),
      r1, MessageType.fromByte_toByte, r2, s3, fromBeBytes_toBeBytes,
      Nat.mod_eq_of_lt (show mts < 256 ^ 8 by omega),
      r11, MessageFlags.from_byte_to_byte mfl hres,
      if_neg (show ¬(12 + 2 > E.length) by omega),
      s12, fromBeBytes_toBeBytes,
      Nat.mod_eq_of_lt (show mP.length < 256 ^ 2 by omega),
      if_neg (show ¬(14 + 8 > E.length) by omega),
      s14, hfr, if_pos (show (true = true) by decide),
      if_neg (show ¬(22 + 8 > E.length) by omega), s22]
    simp only [decodeTail]
    rw [if_neg (show ¬(30 + mP.length > E.length) by omega), sP, hfg,
      if_pos (show (true = true) by decide),
      if_neg (show ¬(30 + mP.length + 64 > E.length) by omega), sSig]

end BitchatProtocol

end Protocol

theorem length_encodeBytes_ge_payload (m : Protocol.ProtocolMessage) :
    m.payload.length ≤ (Protocol.BitchatProtocol.encodeBytes m).length := by
  simp only [Protocol.BitchatProtocol.encodeBytes, List.length_append,
    List.length_cons, List.length_singleton, length_toBeBytes]
  omega

/-- C1 (amended): for every frame satisfying the invariants — version = 1,
ttl ≤ 7, an 8-byte sender id, recipient id present (with length 8) iff the
has_recipient flag is set, signature present (with length 64) iff the
has_signature flag is set, reserved flags nibble < 16, 64-bit timestamp,
encoded size ≤ 512 — encoding succeeds and decoding the encoded bytes
returns a frame equal to the original in every field, including the
reserved high nibble of the flags byte, except the message id: the wire
format carries no id, and `decode` assigns a freshly generated one. -/
theorem c1_codec_roundtrip_except_id (m : Protocol.ProtocolMessage) (fresh : Nat)
    (hv : m.version = Protocol.PROTOCOL_VERSION)
    (httl : m.ttl ≤ Protocol.MAX_TTL)
    (hres : m.flags.reserved < 16)
    (hts : m.timestamp < 2 ^ 64)
    (hsender : m.sender_id.length = 8)
    (hrecflag : m.recipient_id.isSome = m.flags.has_recipient)
    (hreclen : ∀ r, m.recipient_id = some r → r.length = 8)
    (hsigflag : m.signature.isSome = m.flags.has_signature)
    (hsiglen : ∀ s, m.signature = some s → s.length = 64)
    (hsize : (Protocol.BitchatProtocol.encodeBytes m).length ≤ Protocol.MAX_PAYLOAD_SIZE) :
    Protocol.BitchatProtocol.encode m = .ok (Protocol.BitchatProtocol.encodeBytes m) ∧
    Protocol.BitchatProtocol.decode fresh (Protocol.BitchatProtocol.encodeBytes m)
      = .ok { m with id := fresh } := by
  have h512 : Protocol.MAX_PAYLOAD_SIZE = 512 := rfl
  have hP : m.payload.length < 65536 := by
    have hle := length_encodeBytes_ge_payload m
    omega
  refine ⟨?_, ?_⟩
  · simp only [Protocol.BitchatProtocol.encode]
    rw [if_neg (by omega)]
  · have h := Protocol.BitchatProtocol.decode_encodeBytes_append m fresh []
      hv hres hts hsender hrecflag hreclen hsigflag hsiglen hP
    simpa using h

/-- Witness for C1 at a concrete valid frame, with generated id 9. -/
theorem c1_codec_roundtrip_except_id_witness :
    Protocol.BitchatProtocol.encode c1Frame
        = .ok (Protocol.BitchatProtocol.encodeBytes c1Frame) ∧
    Protocol.BitchatProtocol.decode 9 (Protocol.BitchatProtocol.encodeBytes c1Frame)
        = .ok { c1Frame with id := 9 } :=
  c1_codec_roundtrip_except_id c1Frame 9 rfl (by decide) (by decide) (by decide)
    (by decide) rfl (fun _ h => by cases h) rfl (fun _ h => by cases h) (by decide)

/-- C1 as literally stated is false: the decoded frame does not carry the
message id assigned at origin. `c1Frame` has id 0; decoding its encoding
(with freshly generated id 1, modelling `Uuid::new_v4()`) yields a
different frame. -/
theorem c1_counterexample :
    Protocol.BitchatProtocol.encode c1Frame
        = .ok (Protocol.BitchatProtocol.encodeBytes c1Frame) ∧
    Protocol.BitchatProtocol.decode 1 (Protocol.BitchatProtocol.encodeBytes c1Frame)
        ≠ .ok c1Frame := by
  decide

/-- C5 (amended): `decode` is not strict — a well-formed frame followed by
any trailing bytes still decodes successfully, to the same frame (with a
fresh id); the trailing bytes are silently ignored. -/
theorem c5_decode_ignores_trailing_bytes (m : Protocol.ProtocolMessage)
    (fresh : Nat) (junk : List Nat)
    (hv : m.version = Protocol.PROTOCOL_VERSION)
    (hres : m.flags.reserved < 16)
    (hts : m.timestamp < 2 ^ 64)
    (hsender : m.sender_id.length = 8)
    (hrecflag : m.recipient_id.isSome = m.flags.has_recipient)
    (hreclen : ∀ r, m.recipient_id = some r → r.length = 8)
    (hsigflag : m.signature.isSome = m.flags.has_signature)
    (hsiglen : ∀ s, m.signature = some s → s.length = 64)
    (hsize : (Protocol.BitchatProtocol.encodeBytes m).length ≤ Protocol.MAX_PAYLOAD_SIZE) :
    Protocol.BitchatProtocol.decode fresh (Protocol.BitchatProtocol.encodeBytes m ++ junk)
      = .ok { m with id := fresh } := by
  have hP : m.payload.length < 65536 := by
    have hle := length_encodeBytes_ge_payload m
    have h512 : Protocol.MAX_PAYLOAD_SIZE = 512 := rfl
    omega
  exact Protocol.BitchatProtocol.decode_encodeBytes_append m fresh junk
    hv hres hts hsender hrecflag hreclen hsigflag hsiglen hP

/-- Witness for C5: a concrete frame with three trailing bytes. -/
theorem c5_decode_ignores_trailing_bytes_witness :
    Protocol.BitchatProtocol.decode 0 (Protocol.BitchatProtocol.encodeBytes c5Frame ++ [0, 0, 0])
      = .ok { c5Frame with id := 0 } :=
  c5_decode_ignores_trailing_bytes c5Frame 0 [0, 0, 0] rfl (by decide) (by decide)
    (by decide) rfl (fun _ h => by cases h) rfl (fun _ h => by cases h) (by decide)

/-- C5 as stated is false: appending one trailing byte to a well-formed
encoded frame does not make `decode` return an error — it succeeds. -/
theorem c5_counterexample :
    Protocol.BitchatProtocol.decode 0 (Protocol.BitchatProtocol.encodeBytes c5Frame ++ [0])
      = .ok { c5Frame with id := 0 } := by
  decide

/-- C6: every byte sequence returned by `encode` has length at most 512,
and a frame whose serialized buffer exceeds 512 bytes makes `encode` fail
instead of returning bytes. -/
theorem c6_encode_size_ceiling :
    (∀ (m : Protocol.ProtocolMessage) (bs : List Nat),
      Protocol.BitchatProtocol.encode m = .ok bs → bs.length ≤ 512) ∧
    (∀ m : Protocol.ProtocolMessage,
      (Protocol.BitchatProtocol.encodeBytes m).length > 512 →
      ∀ bs, Protocol.BitchatProtocol.encode m ≠ .ok bs) := by
  have h512 : Protocol.MAX_PAYLOAD_SIZE = 512 := rfl
  constructor
  · intro m bs h
    simp only [Protocol.BitchatProtocol.encode] at h
    split at h
    · exact absurd h (by simp)
    · cases h
      omega
  · intro m hlen bs h
    simp only [Protocol.BitchatProtocol.encode] at h
    split at h
    · exact absurd h (by simp)
    · omega

set_option maxRecDepth 10000 in
/-- Witness for C6: a 23-byte frame passes, a 622-byte frame is refused. -/
theorem c6_encode_size_ceiling_witness :
    (Protocol.BitchatProtocol.encodeBytes c6SmallFrame).length ≤ 512 ∧
    (Protocol.BitchatProtocol.encodeBytes c6BigFrame).length > 512 ∧
    Protocol.BitchatProtocol.encode c6BigFrame
      ≠ .ok (Protocol.BitchatProtocol.encodeBytes c6BigFrame) :=
  ⟨c6_encode_size_ceiling.1 c6SmallFrame _ (by decide),
   by decide,
   c6_encode_size_ceiling.2 c6BigFrame (by decide) _⟩

theorem fromByte_not_mem (b : Nat)
    (hb : b ∉ Protocol.BitchatProtocol.enumeratedTypeBytes) :
    Protocol.MessageType.fromByte b = .Message := by
  simp only [Protocol.BitchatProtocol.enumeratedTypeBytes, List.mem_cons,
    List.not_mem_nil, or_false, not_or] at hb
  obtain ⟨h1, h4, hA, hB, hC, h8, h10, h11, h12, h14, h15, h16, h17⟩ := hb
  simp [Protocol.MessageType.fromByte, h1, h4, hA, hB, hC, h8, h10, h11, h12,
    h14, h15, h16, h17]

/-- C10: a type byte outside the thirteen enumerated values does not make
`decode` reject the frame on account of the type — the `From<u8>`
conversion falls back to `MessageType::Message`, every successfully
decoded frame with such a type byte carries type `Message`, and
re-encoding such a frame writes type byte 0x04. -/
theorem c10_unknown_type_byte_falls_back :
    (∀ b, b ∉ Protocol.BitchatProtocol.enumeratedTypeBytes →
      Protocol.MessageType.fromByte b = .Message) ∧
    (∀ (fresh : Nat) (data : List Nat) (m : Protocol.ProtocolMessage),
      Protocol.BitchatProtocol.decode fresh data = .ok m →
      byteAt data 1 ∉ Protocol.BitchatProtocol.enumeratedTypeBytes →
      m.message_type = .Message) ∧
    (∀ (m : Protocol.ProtocolMessage) (bs : List Nat),
      m.message_type = .Message →
      Protocol.BitchatProtocol.encode m = .ok bs → byteAt bs 1 = 0x04) := by
  refine ⟨fromByte_not_mem, ?_, ?_⟩
  · intro fresh data m h hb
    simp only [Protocol.BitchatProtocol.decode, Protocol.BitchatProtocol.decodeTail] at h
    iterate 10 all_goals (try split at h)
    all_goals cases h
    all_goals exact fromByte_not_mem _ hb
  · intro m bs hm h
    simp only [Protocol.BitchatProtocol.encode] at h
    split at h
    · exact absurd h (by simp)
    · cases h
      simp only [Protocol.BitchatProtocol.encodeBytes, hm]
      rfl

/-- Witness for C10 at type byte 0x05 and a concrete wire buffer. -/
theorem c10_unknown_type_byte_falls_back_witness :
    Protocol.MessageType.fromByte 5 = .Message ∧
    c10Decoded.message_type = .Message ∧
    byteAt (Protocol.BitchatProtocol.encodeBytes c10Decoded) 1 = 0x04 :=
  ⟨c10_unknown_type_byte_falls_back.1 5 (by decide),
   c10_unknown_type_byte_falls_back.2.1 0 c10Bytes c10Decoded (by decide) (by decide),
   c10_unknown_type_byte_falls_back.2.2 c10Decoded _ rfl (by decide)⟩

/-- C4: the relay step decrements ttl by exactly one — `decrease_ttl`
returns the message with ttl = t − 1 when t > 0 (the application-level
variant also counts the hop) — and a message with ttl = 0 is never
relayed: `decrease_ttl` yields no forwardable message and `should_relay`
is false at ttl = 0. -/
theorem c4_ttl_decrement_and_zero_not_relayed :
    (∀ m : Protocol.ProtocolMessage, m.ttl > 0 →
      m.decrease_ttl = some { m with ttl := m.ttl - 1 }) ∧
    (∀ m : Protocol.ProtocolMessage, m.ttl = 0 → m.decrease_ttl = none) ∧
    (∀ b : MessageTypes.BitchatMessage, b.ttl > 0 →
      b.decrease_ttl
        = (true, { b with ttl := b.ttl - 1, hop_count := (b.hop_count + 1) % 256 })) ∧
    (∀ b : MessageTypes.BitchatMessage, b.ttl = 0 → b.decrease_ttl = (false, b)) ∧
    (∀ b : MessageTypes.BitchatMessage, b.ttl = 0 → b.should_relay = false) := by
  refine ⟨?_, ?_, ?_, ?_, ?_⟩
  · intro m h
    simp [Protocol.ProtocolMessage.decrease_ttl, h]
  · intro m h
    simp [Protocol.ProtocolMessage.decrease_ttl, h]
  · intro b h
    simp [MessageTypes.BitchatMessage.decrease_ttl, h]
  · intro b h
    simp [MessageTypes.BitchatMessage.decrease_ttl, h]
  · intro b h
    simp [MessageTypes.BitchatMessage.should_relay, h]

/-- Witness for C4 at concrete ttl = 3 and ttl = 0 messages. -/
theorem c4_ttl_decrement_and_zero_not_relayed_witness :
    c5Frame.decrease_ttl = some { c5Frame with ttl := c5Frame.ttl - 1 } ∧
    Protocol.ProtocolMessage.decrease_ttl { c5Frame with ttl := 0 } = none ∧
    (mkTestMessage 1).decrease_ttl
      = (true,
         { mkTestMessage 1 with
            ttl := (mkTestMessage 1).ttl - 1
            hop_count := ((mkTestMessage 1).hop_count + 1) % 256 }) ∧
    MessageTypes.BitchatMessage.decrease_ttl { mkTestMessage 1 with ttl := 0 }
      = (false, { mkTestMessage 1 with ttl := 0 }) ∧
    MessageTypes.BitchatMessage.should_relay { mkTestMessage 1 with ttl := 0 } = false :=
  ⟨c4_ttl_decrement_and_zero_not_relayed.1 c5Frame (by decide),
   c4_ttl_decrement_and_zero_not_relayed.2.1 _ rfl,
   c4_ttl_decrement_and_zero_not_relayed.2.2.1 _ (by decide),
   c4_ttl_decrement_and_zero_not_relayed.2.2.2.1 _ rfl,
   c4_ttl_decrement_and_zero_not_relayed.2.2.2.2 _ rfl⟩

/-- C3: the code contradicts the claim. `decrypt_message` keeps no nonce
state: decrypting the same ciphertext twice on an established session
succeeds both times — the replayed message is delivered again — and the
session stays `Complete`; nothing ever sets it to `Failed`. -/
theorem c3_replay_accepted_and_session_not_failed :
    (c3Session.decrypt_message 10 [1, 2, 3]).1 = .ok [1, 2, 3] ∧
    ((c3Session.decrypt_message 10 [1, 2, 3]).2.decrypt_message 20 [1, 2, 3]).1
      = .ok [1, 2, 3] ∧
    ((c3Session.decrypt_message 10 [1, 2, 3]).2.decrypt_message 20 [1, 2, 3]).2.state
      = .Complete := by
  decide

/-- C2: the code contradicts the claim. Channel "encryption" is an
unauthenticated XOR with a SHA-256-derived key: the round trip with the
matching password recovers the plaintext, but with a mismatched password
`try_decrypt_with_password` still returns `Ok` — of garbage bytes —
instead of failing with a wrong-key error; the function has no failure
path at all. Evaluated at channel "#t", password "pw", wrong password
"nope", plaintext "hi". -/
theorem c2_wrong_password_decrypt_does_not_fail :
    ChannelCrypto.try_decrypt_with_password 0 "#t" c2PwBytes
        (ChannelCrypto.encryptWithChannelKey
          (ChannelCrypto.ChannelKey.from_password_and_salt 0 "#t" c2PwBytes c2Salt)
          c2Plain) c2Salt
      = .ok c2Plain ∧
    (ChannelCrypto.try_decrypt_with_password 0 "#t" c2NopeBytes
        (ChannelCrypto.encryptWithChannelKey
          (ChannelCrypto.ChannelKey.from_password_and_salt 0 "#t" c2PwBytes c2Salt)
          c2Plain) c2Salt).isOk = true ∧
    ChannelCrypto.try_decrypt_with_password 0 "#t" c2NopeBytes
        (ChannelCrypto.encryptWithChannelKey
          (ChannelCrypto.ChannelKey.from_password_and_salt 0 "#t" c2PwBytes c2Salt)
          c2Plain) c2Salt
      ≠ .ok c2Plain := by
  decide

/-- C9 as stated is false: a non-favorite peer in `Connected` state whose
last-heard instant is 1000 s old (far beyond `PEER_TIMEOUT` = 90 s)
survives `cleanup_offline_peers`, because `is_online` counts `Connected`
peers as online regardless of `last_seen`. -/
theorem c9_counterexample :
    PeerManager.cleanup_offline_peers 1000 [c9ConnectedStalePeer]
      = [c9ConnectedStalePeer] ∧
    c9ConnectedStalePeer.is_favorite = false ∧
    PeerManager.elapsedSecs c9ConnectedStalePeer.last_seen 1000 = some 1000 ∧
    1000 > PeerManager.PEER_TIMEOUT := by
  decide

/-- C9 (amended): after the sweep, every favorite is kept; every
non-favorite peer that is neither `Connected` nor `Authenticated`, whose
elapsed time since `last_seen` is known and exceeds `PEER_TIMEOUT`
(90 s), is removed; and every peer in `Connected` or `Authenticated`
state is kept regardless of how long it has been silent. -/
theorem c9_cleanup_evicts_stale_disconnected (now : Nat)
    (peers : List PeerManager.PeerInfo) :
    (∀ p ∈ peers, p.is_favorite = true →
      p ∈ PeerManager.cleanup_offline_peers now peers) ∧
    (∀ p ∈ peers, p.is_favorite = false →
      p.connection_state ≠ .Connected → p.connection_state ≠ .Authenticated →
      ∀ e, PeerManager.elapsedSecs p.last_seen now = some e →
      e > PeerManager.PEER_TIMEOUT →
      p ∉ PeerManager.cleanup_offline_peers now peers) ∧
    (∀ p ∈ peers,
      (p.connection_state = .Connected ∨ p.connection_state = .Authenticated) →
      p ∈ PeerManager.cleanup_offline_peers now peers) := by
  have hPT : PeerManager.PEER_TIMEOUT = 90 := rfl
  refine ⟨?_, ?_, ?_⟩
  · intro p hp hfav
    exact List.mem_filter.mpr ⟨hp, by simp [hfav]⟩
  · intro p hp hfav hc ha e he hgt hmem
    have h := (List.mem_filter.mp hmem).2
    have honline : p.is_online now = false := by
      cases hcs : p.connection_state
      case Connected => exact absurd hcs hc
      case Authenticated => exact absurd hcs ha
      all_goals
        simp only [PeerManager.PeerInfo.is_online, hcs, he, decide_eq_false_iff_not]
        omega
    simp only [hfav, Bool.false_eq_true, if_false, he, honline] at h
    simp only [Bool.not_false, Bool.and_true, Bool.not_eq_true',
      decide_eq_false_iff_not] at h
    omega
  · intro p hp hcs
    have honline : p.is_online now = true := by
      rcases hcs with h | h <;> simp [PeerManager.PeerInfo.is_online, h]
    refine List.mem_filter.mpr ⟨hp, ?_⟩
    by_cases hfav : p.is_favorite = true
    · simp [hfav]
    · simp only [Bool.not_eq_true] at hfav
      cases hel : PeerManager.elapsedSecs p.last_seen now <;>
        simp [hfav, hel, honline]

/-- Witness for C9 on a three-peer directory: the favorite stays, the
stale disconnected peer is evicted, the connected peer stays. -/
theorem c9_cleanup_evicts_stale_disconnected_witness :
    c9FavoritePeer ∈ PeerManager.cleanup_offline_peers 1000
      [c9FavoritePeer, c9StalePeer, c9ConnectedStalePeer] ∧
    c9StalePeer ∉ PeerManager.cleanup_offline_peers 1000
      [c9FavoritePeer, c9StalePeer, c9ConnectedStalePeer] ∧
    c9ConnectedStalePeer ∈ PeerManager.cleanup_offline_peers 1000
      [c9FavoritePeer, c9StalePeer, c9ConnectedStalePeer] :=
  ⟨(c9_cleanup_evicts_stale_disconnected 1000 _).1 c9FavoritePeer (by decide) rfl,
   (c9_cleanup_evicts_stale_disconnected 1000 _).2.1 c9StalePeer (by decide) rfl
     (by decide) (by decide) 1000 (by decide) (by decide),
   (c9_cleanup_evicts_stale_disconnected 1000 _).2.2 c9ConnectedStalePeer (by decide)
     (Or.inl rfl)⟩

theorem popFrontWhileOver_eq_drop (maxM : Nat) (l : List MessageTypes.BitchatMessage) :
    Storage.popFrontWhileOver maxM l = l.drop (l.length - maxM) := by
  induction l with
  | nil => simp [Storage.popFrontWhileOver]
  | cons x rest ih =>
    simp only [Storage.popFrontWhileOver, List.length_cons]
    by_cases h : rest.length + 1 > maxM
    · rw [if_pos h, ih]
      have he : rest.length + 1 - maxM = (rest.length - maxM) + 1 := by omega
      rw [he]
      rfl
    · rw [if_neg h]
      have he : rest.length + 1 - maxM = 0 := by omega
      rw [he, List.drop_zero]

theorem store_message_max (st : Storage.MessageStorage)
    (m : MessageTypes.BitchatMessage) :
    (st.store_message m).max_messages = st.max_messages := by
  simp only [Storage.MessageStorage.store_message]
  split <;> rfl

theorem store_message_length_le (st : Storage.MessageStorage)
    (m : MessageTypes.BitchatMessage) (h : st.messages.length ≤ st.max_messages) :
    (st.store_message m).messages.length ≤ st.max_messages := by
  simp only [Storage.MessageStorage.store_message]
  split
  · exact h
  · simp only [popFrontWhileOver_eq_drop, List.length_drop, List.length_append,
      List.length_singleton]
    omega

theorem foldl_store_invariant (msgs : List MessageTypes.BitchatMessage)
    (st : Storage.MessageStorage) (h : st.messages.length ≤ st.max_messages) :
    (msgs.foldl Storage.MessageStorage.store_message st).max_messages
        = st.max_messages ∧
    (msgs.foldl Storage.MessageStorage.store_message st).messages.length
        ≤ st.max_messages := by
  induction msgs generalizing st with
  | nil => exact ⟨rfl, h⟩
  | cons m rest ih =>
    simp only [List.foldl_cons]
    have h1 := store_message_max st m
    have h2 := store_message_length_le st m h
    obtain ⟨ha, hb⟩ := ih (st.store_message m) (h1.symm ▸ h2)
    exact ⟨ha.trans h1, h1 ▸ hb⟩

theorem foldl_store_messages (msgs : List MessageTypes.BitchatMessage)
    (st : Storage.MessageStorage)
    (hnd : ((st.messages ++ msgs).map (fun b => b.id)).Nodup)
    (hst : st.messages.length ≤ st.max_messages) :
    (msgs.foldl Storage.MessageStorage.store_message st).messages
      = (st.messages ++ msgs).drop
          (st.messages.length + msgs.length - st.max_messages) := by
  induction msgs generalizing st with
  | nil =>
    simp only [List.foldl_nil, List.append_nil, List.length_nil]
    rw [Nat.add_zero, Nat.sub_eq_zero_of_le hst, List.drop_zero]
  | cons m rest ih =>
    have hnotin : ∀ x ∈ st.messages, x.id ≠ m.id := by
      intro x hx heq
      rw [List.map_append] at hnd
      have hdisj := (List.nodup_append.mp hnd).2.2
      exact hdisj (List.mem_map_of_mem _ hx)
        (heq ▸ List.mem_map_of_mem _ (List.mem_cons_self m rest))
    have hany : st.messages.any (fun x => x.id == m.id) = false := by
      rw [List.any_eq_false]
      intro x hx
      simp only [beq_iff_eq]
      exact hnotin x hx
    simp only [List.foldl_cons, Storage.MessageStorage.store_message, hany,
      Bool.false_eq_true, if_false]
    have hmsgs : Storage.popFrontWhileOver st.max_messages (st.messages ++ [m])
        = (st.messages ++ [m]).drop (st.messages.length + 1 - st.max_messages) := by
      rw [popFrontWhileOver_eq_drop, List.length_append, List.length_singleton]
    rw [hmsgs]
    have hsub : ((st.messages ++ [m]).drop (st.messages.length + 1 - st.max_messages)
          ++ rest).Sublist (st.messages ++ m :: rest) := by
      have h1 := List.Sublist.append_right
        (List.drop_sublist (st.messages.length + 1 - st.max_messages)
          (st.messages ++ [m])) rest
      simpa using h1
    have hnd2 : ((((st.messages ++ [m]).drop
          (st.messages.length + 1 - st.max_messages)) ++ rest).map
        (fun b => b.id)).Nodup :=
      (hsub.map (fun b => b.id)).nodup hnd
    have hXlen : ((st.messages ++ [m]).drop
          (st.messages.length + 1 - st.max_messages)).length
        = st.messages.length + 1 - (st.messages.length + 1 - st.max_messages) := by
      simp
    have hlen2 : ((st.messages ++ [m]).drop
          (st.messages.length + 1 - st.max_messages)).length ≤ st.max_messages := by
      rw [hXlen]
      omega
    have hres := ih
      { st with
          messages := (st.messages ++ [m]).drop (st.messages.length + 1 - st.max_messages) }
      hnd2 hlen2
    rw [hres]
    have happ : ((st.messages ++ [m]).drop (st.messages.length + 1 - st.max_messages))
          ++ rest
        = (st.messages ++ m :: rest).drop (st.messages.length + 1 - st.max_messages) := by
      have hd : st.messages.length + 1 - st.max_messages
          ≤ (st.messages ++ [m]).length := by
        simp only [List.length_append, List.length_singleton]
        omega
      calc ((st.messages ++ [m]).drop (st.messages.length + 1 - st.max_messages)) ++ rest
          = ((st.messages ++ [m]) ++ rest).drop
              (st.messages.length + 1 - st.max_messages) :=
            (List.drop_append_of_le_length hd).symm
        _ = (st.messages ++ m :: rest).drop (st.messages.length + 1 - st.max_messages) := by
            simp
    rw [happ, List.drop_drop]
    congr 1
    rw [hXlen]
    simp only [List.length_cons]
    omega

/-- C7: after any sequence of `store_message` calls the store holds at
most 10 000 messages; and after 10 000 + k insertions with pairwise
distinct ids, the store is exactly the last 10 000 inserted messages in
insertion order (newest last) and none of the k oldest ids is present. -/
theorem c7_store_bound_and_eviction :
    (∀ msgs, (Storage.storeSequence msgs).messages.length ≤ 10000) ∧
    (∀ msgs k, ((msgs.map (fun b => b.id)).Nodup) → msgs.length = 10000 + k →
      (Storage.storeSequence msgs).messages = msgs.drop k ∧
      ∀ bOld ∈ msgs.take k, ∀ bNew ∈ (Storage.storeSequence msgs).messages,
        bNew.id ≠ bOld.id) := by
  constructor
  · intro msgs
    have h := foldl_store_invariant msgs Storage.MessageStorage.new
      (by simp [Storage.MessageStorage.new])
    exact h.2
  · intro msgs k hnd hlen
    have hmain := foldl_store_messages msgs Storage.MessageStorage.new
      (by simpa [Storage.MessageStorage.new] using hnd)
      (by simp [Storage.MessageStorage.new])
    have heq : (Storage.storeSequence msgs).messages = msgs.drop k := by
      simp only [Storage.storeSequence, Storage.MessageStorage.new] at hmain ⊢
      rw [hmain]
      simp only [List.nil_append, List.length_nil, Nat.zero_add, hlen,
        Nat.add_sub_cancel_left]
    refine ⟨heq, ?_⟩
    intro bOld hOld bNew hNew heqid
    have hsplit := (List.take_append_drop k msgs).symm
    rw [hsplit, List.map_append] at hnd
    have hdisj := (List.nodup_append.mp hnd).2.2
    rw [heq] at hNew
    exact hdisj (List.mem_map_of_mem _ hOld) (heqid ▸ List.mem_map_of_mem _ hNew)

/-- Witness for C7: 10 001 messages with distinct ids 0..10000; the store
keeps exactly the last 10 000. -/
theorem c7_store_bound_and_eviction_witness :
    (Storage.storeSequence c7TestMessages).messages.length ≤ 10000 ∧
    (c7TestMessages.map (fun b => b.id)).Nodup ∧
    c7TestMessages.length = 10000 + 1 ∧
    (Storage.storeSequence c7TestMessages).messages = c7TestMessages.drop 1 := by
  have hids : c7TestMessages.map (fun b => b.id) = List.range 10001 := by
    have hcomp : ((fun b => MessageTypes.BitchatMessage.id b) ∘ mkTestMessage)
        = fun i => i := by
      funext i
      rfl
    simp [c7TestMessages, List.map_map, hcomp]
  have hnd : (c7TestMessages.map (fun b => b.id)).Nodup := by
    rw [hids]
    exact List.nodup_range 10001
  have hlen : c7TestMessages.length = 10000 + 1 := by
    simp [c7TestMessages]
  exact ⟨c7_store_bound_and_eviction.1 c7TestMessages, hnd, hlen,
    (c7_store_bound_and_eviction.2 c7TestMessages 1 hnd hlen).1⟩

theorem updateFirstDelivery_not_found (mid : Nat) (ds : MessageTypes.DeliveryStatus)
    (l : List MessageTypes.BitchatMessage) (h : ∀ x ∈ l, x.id ≠ mid) :
    Storage.updateFirstDelivery mid ds l = l := by
  induction l with
  | nil => rfl
  | cons x rest ih =>
    simp only [Storage.updateFirstDelivery]
    rw [if_neg (h x (List.mem_cons_self x rest)),
      ih (fun y hy => h y (List.mem_cons_of_mem x hy))]

theorem updateFirstDelivery_found (mid : Nat) (ds : MessageTypes.DeliveryStatus)
    (pre : List MessageTypes.BitchatMessage) (x : MessageTypes.BitchatMessage)
    (post : List MessageTypes.BitchatMessage)
    (hpre : ∀ y ∈ pre, y.id ≠ mid) (hx : x.id = mid) :
    Storage.updateFirstDelivery mid ds (pre ++ x :: post)
      = pre ++ x.set_delivery_status ds :: post := by
  induction pre with
  | nil => simp [Storage.updateFirstDelivery, hx]
  | cons y pre ih =>
    simp only [List.cons_append, Storage.updateFirstDelivery, List.append_eq]
    rw [if_neg (hpre y (List.mem_cons_self y pre)),
      ih (fun z hz => hpre z (List.mem_cons_of_mem y hz))]

/-- C8 (amended): processing a DeliveryAck through
`update_delivery_status` sets the delivery status of the first stored
message with the acknowledged id to `Delivered` unconditionally — a
message already marked `Read` is overwritten to `Delivered`, not left
as a no-op — while a missing id leaves the store unchanged; in every
case the operation reports `Ok` rather than an error. -/
theorem c8_delivery_ack_overwrites_status (st : Storage.MessageStorage) (mid : Nat) :
    ((∀ x ∈ st.messages, x.id ≠ mid) →
      st.update_delivery_status mid .Delivered = (st, .ok ())) ∧
    (∀ pre x post, st.messages = pre ++ x :: post →
      (∀ y ∈ pre, y.id ≠ mid) → x.id = mid →
      (st.update_delivery_status mid .Delivered).1.messages
          = pre ++ x.set_delivery_status .Delivered :: post ∧
      (st.update_delivery_status mid .Delivered).2 = .ok ()) := by
  constructor
  · intro h
    simp only [Storage.MessageStorage.update_delivery_status]
    rw [updateFirstDelivery_not_found mid _ st.messages h]
  · intro pre x post hsplit hpre hx
    refine ⟨?_, rfl⟩
    simp only [Storage.MessageStorage.update_delivery_status]
    rw [hsplit, updateFirstDelivery_found mid _ pre x post hpre hx]

/-- Witness for C8: a missing id (7) leaves the store unchanged and
reports Ok; a present id (5) gets its delivery status set. -/
theorem c8_delivery_ack_overwrites_status_witness :
    c8WStore.update_delivery_status 7 .Delivered = (c8WStore, .ok ()) ∧
    (c8WStore.update_delivery_status 5 .Delivered).1.messages
      = [MessageTypes.BitchatMessage.set_delivery_status
          { mkTestMessage 5 with delivery_status := some .Pending } .Delivered] :=
  ⟨(c8_delivery_ack_overwrites_status c8WStore 7).1 (by decide),
   ((c8_delivery_ack_overwrites_status c8WStore 5).2 [] _ [] rfl (by simp) rfl).1⟩

/-- C8 as stated is false on the "already `Read`" clause: updating the
delivery status of a message whose status is `Read` overwrites it to
`Delivered` instead of keeping `Read`. -/
theorem c8_counterexample :
    (c8Store.update_delivery_status 5 .Delivered).1.messages
      = [{ c8ReadMessage with delivery_status := some .Delivered }] ∧
    c8ReadMessage.delivery_status = some .Read := by
  decide
